import Mathlib

/-
  Verification of the frame-mixer and input-demux core of ask4jm/Server.

  Shallow embedding of:
    src/mixer/frame_mixer_device.cpp   (tweened_transform, mix_image, mix_audio)
    src/core/producer/ffmpeg/input.cpp (fix_time_base, read_file, seek_frame,
                                        get_packet, is_eof)

  Machine integers of the source (C++ int) are modelled as ℤ; the double
  arithmetic of the tween evaluator is modelled over ℚ, which keeps the
  structural facts (the +0.000001 offset, exactness and clamping) exact.
-/

namespace Server

/-! ## Tween evaluator (frame_mixer_device.cpp, lines 27-56) -/

/-- Small positive constant the source adds to the tween duration
(the literal 0.000001 in tweened_transform::fetch). -/
def eps : ℚ := 1 / 1000000

/-- Modelled from the spec: image_transform and audio_transform live outside
src/.  Per the spec they are value types with multiplicative composition,
identity and total equality, interpolated componentwise by the easing; a
transform is therefore modelled as a single rational component whose
identity value is 1 (e.g. opacity or volume). -/
abbrev Transform := ℚ

/-- Modelled from the spec: the easing functions of common/utility/tweener.h
are outside src/.  The spec gives the signature (t, from, to, duration) and
requires the result to be exactly the start value at t = 0 and exactly the
end value at t = duration; this is the linear easing. -/
def linearEase (t b c d : ℚ) : ℚ := b + (c - b) * t / d

/-- Embeds tweened_transform<T>: source_, dest_, duration_, time_ and the
easing selected by get_tweener (the claims only use the linear easing, so the
tweener_ member is carried as the easing function itself). -/
structure TweenedTransform where
  source : Transform
  dest : Transform
  duration : ℤ
  time : ℤ
  tweener : ℚ → ℚ → ℚ → ℚ → ℚ

/-- Embeds the default constructor: duration_ 0, time_ 0, linear tweener,
default-constructed transforms (the identity value 1). -/
def TweenedTransform.default : TweenedTransform :=
  { source := 1, dest := 1, duration := 0, time := 0, tweener := linearEase }

/-- Embeds tweened_transform::fetch:
tween(time_, source_, dest_, duration_ + 0.000001, tweener_). -/
def TweenedTransform.fetch (tw : TweenedTransform) : Transform :=
  tw.tweener (tw.time : ℚ) tw.source tw.dest ((tw.duration : ℚ) + eps)

/-- Embeds the mutation in tweened_transform::fetch_and_tick:
time_ = std::min(time_ + num, duration_). -/
def TweenedTransform.tick (tw : TweenedTransform) (num : ℤ) : TweenedTransform :=
  { tw with time := min (tw.time + num) tw.duration }

/-- Embeds tweened_transform::fetch_and_tick(num): advances time_ (clamped to
duration_) and then fetches; returns the fetched value and the updated state. -/
def TweenedTransform.fetch_and_tick (tw : TweenedTransform) (num : ℤ) :
    Transform × TweenedTransform :=
  ((tw.tick num).fetch, tw.tick num)

/-- Embeds set_image_transform / set_audio_transform (lines 172-210): the new
tween runs from the currently fetched value to the given value. -/
def set_transform (tw : TweenedTransform) (value : Transform) (mix_duration : ℤ)
    (tween : ℚ → ℚ → ℚ → ℚ → ℚ) : TweenedTransform :=
  { source := tw.fetch, dest := value, duration := mix_duration, time := 0,
    tweener := tween }

/-- Embeds apply_image_transform / apply_audio_transform (lines 212-250): like
set, but the destination is the function applied to the current value. -/
def apply_transform (tw : TweenedTransform) (fn : Transform → Transform)
    (mix_duration : ℤ) (tween : ℚ → ℚ → ℚ → ℚ → ℚ) : TweenedTransform :=
  { source := tw.fetch, dest := fn tw.fetch, duration := mix_duration, time := 0,
    tweener := tween }

/-! ## Frame mixer (frame_mixer_device.cpp, lines 58-165) -/

/-- Embeds video_mode as far as the mixer consults it: the mix passes only
test mode != progressive, and basic_frame::interlace receives the mode. -/
inductive VideoMode where
  | progressive
  | upper
  | lower
deriving DecidableEq

/-- Modelled from the spec: basic_frame lives outside src/.  The spec makes it
either the EMPTY singleton, the EOF singleton, or a frame carrying a layer
index (the image/audio payloads are irrelevant to the mix bookkeeping the
claims are about). -/
inductive BasicFrame where
  | empty
  | eof
  | frame (layer : ℤ)
deriving DecidableEq

/-- Modelled from the spec: get_layer_index of a basic_frame; the EMPTY and
EOF singletons carry the default index 0. -/
def BasicFrame.get_layer_index : BasicFrame → ℤ
  | .frame l => l
  | _ => 0

/-- Embeds the mutable state of frame_mixer_device::implementation that the
mix passes read and write: the two root tweens, the two per-layer
unordered_maps (operator[] default-constructs missing entries, so each map is
a total function initialised to the default tween) and the video mode of
format_desc_. -/
structure MixerState where
  root_image_transform : TweenedTransform
  root_audio_transform : TweenedTransform
  image_transforms : ℤ → TweenedTransform
  audio_transforms : ℤ → TweenedTransform
  mode : VideoMode

/-- Pointwise update of a per-layer map, as the in-place mutation of an
unordered_map entry. -/
def updateMap (m : ℤ → TweenedTransform) (i : ℤ) (tw : TweenedTransform) :
    ℤ → TweenedTransform :=
  fun j => if j = i then tw else m j

/-- Embeds one accept into the image mixer: either a single child frame with
its evaluated transform, or the basic_frame::interlace of two children. -/
inductive ImageItem where
  | single (t : Transform)
  | interlaced (t1 t2 : Transform) (mode : VideoMode)
deriving DecidableEq

/-- Embeds the remove/erase idiom of mix_image (lines 103-104): drop every
frame equal to the given value. -/
def erase_value (frames : List BasicFrame) (v : BasicFrame) : List BasicFrame :=
  frames.filter (fun f => f ≠ v)

/-- Frames surviving the two erase calls at the top of mix_image: first the
EMPTY frames are removed, then the EOF frames. -/
def surviving (frames : List BasicFrame) : List BasicFrame :=
  erase_value (erase_value frames BasicFrame.empty) BasicFrame.eof

/-- Embeds the loop body of mix_image (lines 107-128) for one frame: in a
non-progressive mode two children are produced, each evaluated as
root.fetch_and_tick(1) * per_layer[frame.layer].fetch_and_tick(1); if the two
transforms differ the children are interlaced into one accepted frame, else
the second child alone is accepted.  In progressive mode one child is
produced and accepted.  Returns the updated registry state and the accepted
item. -/
def mix_image_step (s : MixerState) (f : BasicFrame) : MixerState × ImageItem :=
  if s.mode ≠ VideoMode.progressive then
    let l := f.get_layer_index
    let r1 := s.root_image_transform.fetch_and_tick 1
    let p1 := (s.image_transforms l).fetch_and_tick 1
    let t1 := r1.1 * p1.1
    let r2 := r1.2.fetch_and_tick 1
    let p2 := p1.2.fetch_and_tick 1
    let t2 := r2.1 * p2.1
    ({ s with root_image_transform := r2.2,
              image_transforms := updateMap s.image_transforms l p2.2 },
     if t1 ≠ t2 then ImageItem.interlaced t1 t2 s.mode else ImageItem.single t2)
  else
    let l := f.get_layer_index
    let r1 := s.root_image_transform.fetch_and_tick 1
    let p1 := (s.image_transforms l).fetch_and_tick 1
    ({ s with root_image_transform := r1.2,
              image_transforms := updateMap s.image_transforms l p1.2 },
     ImageItem.single (r1.1 * p1.1))

/-- Embeds the BOOST_FOREACH loop of mix_image over an already filtered frame
list, collecting the accepted items in acceptance order. -/
def mix_image_pass (s : MixerState) : List BasicFrame → MixerState × List ImageItem
  | [] => (s, [])
  | f :: rest =>
    let step := mix_image_step s f
    let after := mix_image_pass step.1 rest
    (after.1, step.2 :: after.2)

/-- Embeds mix_image (lines 101-131): erase EMPTY frames, erase EOF frames,
then run the image pass over the survivors.  The frame vector is taken by
value, so the filtering is local to this pass. -/
def mix_image (s : MixerState) (frames : List BasicFrame) :
    MixerState × List ImageItem :=
  mix_image_pass s (surviving frames)

/-- Embeds the loop body of mix_audio (lines 136-143) for one frame: num is 1
for progressive and 2 otherwise; the child is evaluated as
root_audio.fetch_and_tick(num) * per_layer[frame.layer].fetch_and_tick(num)
and accepted.  There is no EMPTY/EOF filtering in this pass. -/
def mix_audio_step (s : MixerState) (f : BasicFrame) : MixerState × Transform :=
  let num : ℤ := if s.mode = VideoMode.progressive then 1 else 2
  let l := f.get_layer_index
  let r1 := s.root_audio_transform.fetch_and_tick num
  let p1 := (s.audio_transforms l).fetch_and_tick num
  ({ s with root_audio_transform := r1.2,
            audio_transforms := updateMap s.audio_transforms l p1.2 },
   r1.1 * p1.1)

/-- Embeds mix_audio (lines 133-146): the audio pass runs over the frame list
exactly as passed in (mix_audio receives the original, unfiltered vector),
collecting one accepted child transform per frame. -/
def mix_audio (s : MixerState) : List BasicFrame → MixerState × List Transform
  | [] => (s, [])
  | f :: rest =>
    let step := mix_audio_step s f
    let after := mix_audio (step.1) rest
    (after.1, step.2 :: after.2)

/-- Embeds the body of the tick task in send (lines 150-163): the image pass
receives a copy of the frames (and filters it locally), then the audio pass
receives the original list. -/
def mixer_tick (s : MixerState) (frames : List BasicFrame) :
    MixerState × List ImageItem × List Transform :=
  let image := mix_image s frames
  let audio := mix_audio image.1 frames
  (audio.1, image.2, audio.2)

/-- State of a freshly constructed mixer: default-constructed root tweens and
empty per-layer maps (every lookup default-constructs). -/
def initialMixerState (mode : VideoMode) : MixerState :=
  { root_image_transform := TweenedTransform.default,
    root_audio_transform := TweenedTransform.default,
    image_transforms := fun _ => TweenedTransform.default,
    audio_transforms := fun _ => TweenedTransform.default,
    mode := mode }

/-! ## Input demux pump (input.cpp) -/

/-- Embeds AVRational time_base of a codec context (C++ int fields). -/
structure TimeBase where
  num : ℤ
  den : ℤ
deriving DecidableEq

/-- Truncating integer power of ten, as static_cast<int>(std::pow(10.0, e)):
for a non-negative exponent the exact power, for a negative exponent the
fractional result truncates to 0. -/
def pow10_trunc (e : ℤ) : ℤ :=
  if e < 0 then 0 else 10 ^ e.toNat

/-- Embeds fix_time_base (input.cpp lines 124-128): whenever time_base.num is
1, num is rewritten to
static_cast<int>(pow(10.0, static_cast<int>(log10(den)) - 1)); the truncated
base-10 logarithm of a positive den is Nat.log 10 den. -/
def fix_time_base (tb : TimeBase) : TimeBase :=
  if tb.num = 1 then
    { tb with num := pow10_trunc ((Nat.log 10 tb.den.toNat : ℤ) - 1) }
  else tb

/-- Embeds the codec-context stage of the constructor (input.cpp lines
93-103): when the video stream opens, fix_time_base is applied to the video
context; when the audio stream opens, the source again passes the video
context to fix_time_base (the fix_time_base call itself is a no-op on a null
context).  Returns the (video, audio) contexts after construction. -/
def construct_fix (video audio : Option TimeBase) :
    Option TimeBase × Option TimeBase :=
  let video1 := match video with
    | some tb => some (fix_time_base tb)
    | none => none
  let video2 := match audio with
    | some _ =>
      match video1 with
      | some tb => some (fix_time_base tb)
      | none => none
    | none => video1
  (video2, audio)

/-- Packet payload bytes, as the aligned_buffer the pump copies a read packet
into; the empty buffer is the empty list. -/
abbrev Packet := List ℕ

/-- Embeds the pump state of input::implementation: the executor running
flag, the loop flag, the two stream indices (-1 when the stream is absent)
and the two packet queues. -/
structure PumpState where
  running : Bool
  loop : Bool
  video_s_index : ℤ
  audio_s_index : ℤ
  video_packet_buffer : List Packet
  audio_packet_buffer : List Packet
deriving DecidableEq

/-- Result of one av_read_frame call: a packet with its stream index, or a
failure (end of stream or error). -/
inductive ReadResult where
  | success (stream_index : ℤ) (payload : Packet)
  | failure
deriving DecidableEq

/-- Observable side effects of one pump iteration: the av_seek_frame call
issued by seek_frame (with the chosen stream index) and the seek diagnostic
tag. -/
inductive PumpEvent where
  | seek_call (stream_index : ℤ)
  | seek_tag
deriving DecidableEq

/-- External libavformat calls that seek_frame makes: av_rescale_q of a
timestamp into the time base of the chosen stream, and av_seek_frame
returning a status code. -/
structure AvOracle where
  rescale : ℤ → ℤ → ℤ
  seek : ℤ → ℤ → ℤ → ℤ

/-- The libavformat constant AV_TIME_BASE. -/
def AV_TIME_BASE : ℤ := 1000000

/-- The libavformat constant AVSEEK_FLAG_BACKWARD. -/
def AVSEEK_FLAG_BACKWARD : ℤ := 1

/-- Embeds seek_frame (input.cpp lines 179-193): choose the greater of the
two stream indices, multiply the target by AV_TIME_BASE, rescale it into the
chosen stream time base when a stream exists, call av_seek_frame and report
whether its status is non-negative.  It is a total Bool-valued function: no
exception escapes. -/
def seek_frame (av : AvOracle) (s : PumpState) (seek_target : ℤ) (flags : ℤ) :
    Bool :=
  let stream_index := max s.video_s_index s.audio_s_index
  let target1 := seek_target * AV_TIME_BASE
  let target2 := if 0 ≤ stream_index then av.rescale target1 stream_index
                 else target1
  0 ≤ av.seek stream_index target2 flags

/-- Embeds one iteration of read_file (input.cpp lines 151-177) up to the
re-enqueue: on a successful read the payload is pushed to the queue whose
stream index matches (other streams are dropped); on a failed read the pump
stops if looping is off, otherwise seek_frame(0, AVSEEK_FLAG_BACKWARD) is
attempted, the pump stops if it fails and the seek tag is emitted if it
succeeds.  Returns the new state and the emitted events. -/
def read_file (av : AvOracle) (s : PumpState) (r : ReadResult) :
    PumpState × List PumpEvent :=
  match r with
  | .success idx payload =>
    if idx = s.video_s_index then
      ({ s with video_packet_buffer := s.video_packet_buffer ++ [payload] }, [])
    else if idx = s.audio_s_index then
      ({ s with audio_packet_buffer := s.audio_packet_buffer ++ [payload] }, [])
    else
      (s, [])
  | .failure =>
    if s.loop = false then
      ({ s with running := false }, [])
    else if seek_frame av s 0 AVSEEK_FLAG_BACKWARD then
      (s, [PumpEvent.seek_call (max s.video_s_index s.audio_s_index),
           PumpEvent.seek_tag])
    else
      ({ s with running := false },
       [PumpEvent.seek_call (max s.video_s_index s.audio_s_index)])

/-- Result of get_packet: the returned buffer, the remaining queue, and
whether the backpressure condition was notified. -/
structure GetResult where
  buffer : Packet
  queue : List Packet
  notified : Bool
deriving DecidableEq

/-- Embeds get_packet (input.cpp lines 205-210): notify the condition
variable, then try_pop one packet; the empty buffer is returned when the
queue holds none. -/
def get_packet (queue : List Packet) : GetResult :=
  match queue with
  | [] => { buffer := [], queue := [], notified := true }
  | p :: rest => { buffer := p, queue := rest, notified := true }

/-- Embeds get_video_packet: get_packet on the video queue; the pump state is
returned with the popped queue, together with the buffer and the notify
flag. -/
def get_video_packet (s : PumpState) : Packet × PumpState × Bool :=
  let r := get_packet s.video_packet_buffer
  (r.buffer, { s with video_packet_buffer := r.queue }, r.notified)

/-- Embeds get_audio_packet: get_packet on the audio queue. -/
def get_audio_packet (s : PumpState) : Packet × PumpState × Bool :=
  let r := get_packet s.audio_packet_buffer
  (r.buffer, { s with audio_packet_buffer := r.queue }, r.notified)

/-- Embeds is_eof (input.cpp lines 212-215):
!executor_.is_running() && video queue empty && audio queue empty. -/
def is_eof (s : PumpState) : Bool :=
  !s.running && s.video_packet_buffer.isEmpty && s.audio_packet_buffer.isEmpty

/-! ## Concrete states used to exercise the model -/

/-- Interlaced mixer state whose root tweens run from 0 to 10 + eps over
duration 10, so the linear fetch at elapsed t is exactly t; the per-layer
maps are fresh (every entry the default identity tween). -/
def sampleInterlacedState : MixerState :=
  { root_image_transform :=
      { source := 0, dest := 10 + eps, duration := 10, time := 0,
        tweener := linearEase },
    root_audio_transform :=
      { source := 0, dest := 10 + eps, duration := 10, time := 0,
        tweener := linearEase },
    image_transforms := fun _ => TweenedTransform.default,
    audio_transforms := fun _ => TweenedTransform.default,
    mode := VideoMode.upper }

/-- Interlaced mixer state in which all four kinds of tween (root and every
per-layer entry, image and audio) have duration 10 and elapsed 0. -/
def sampleTickState : MixerState :=
  { root_image_transform :=
      { source := 0, dest := 1, duration := 10, time := 0, tweener := linearEase },
    root_audio_transform :=
      { source := 0, dest := 1, duration := 10, time := 0, tweener := linearEase },
    image_transforms := fun _ =>
      { source := 0, dest := 1, duration := 10, time := 0, tweener := linearEase },
    audio_transforms := fun _ =>
      { source := 0, dest := 1, duration := 10, time := 0, tweener := linearEase },
    mode := VideoMode.upper }

/-- Progressive mixer state whose root audio tween runs from 0 to 1 over
duration 5, used to observe the audio tween advancing. -/
def sampleProgressiveState : MixerState :=
  { root_image_transform := TweenedTransform.default,
    root_audio_transform :=
      { source := 0, dest := 1, duration := 5, time := 0, tweener := linearEase },
    image_transforms := fun _ => TweenedTransform.default,
    audio_transforms := fun _ => TweenedTransform.default,
    mode := VideoMode.progressive }

/-- Running, looping pump with a video stream at index 0 and an audio stream
at index 1 and empty queues. -/
def samplePumpState : PumpState :=
  { running := true, loop := true, video_s_index := 0, audio_s_index := 1,
    video_packet_buffer := [], audio_packet_buffer := [] }

/-- Oracle for the libavformat calls under which every seek succeeds. -/
def sampleAvOk : AvOracle :=
  { rescale := fun t _ => t, seek := fun _ _ _ => 0 }

/-- Oracle for the libavformat calls under which every seek fails. -/
def sampleAvFail : AvOracle :=
  { rescale := fun t _ => t, seek := fun _ _ _ => -1 }

/-! ## Theorems -/

/-- C5: is_eof returns true exactly when the pump executor is not running and
both the video packet queue and the audio packet queue are empty. -/
theorem C5_is_eof_characterisation (s : PumpState) :
    is_eof s = true ↔
      s.running = false ∧ s.video_packet_buffer = [] ∧
        s.audio_packet_buffer = [] := by
  simp [is_eof, List.isEmpty_iff, and_assoc, Bool.not_eq_true']

/-- C9: get_video_packet and get_audio_packet each pop at most one packet
from their own queue (it becomes its tail and the other queue is untouched),
return the empty buffer when the queue holds none (otherwise its head), and
always notify the backpressure condition. -/
theorem C9_get_packet_pops_one_and_notifies (s : PumpState) :
    ((get_video_packet s).2.1.video_packet_buffer = s.video_packet_buffer.tail ∧
     (get_video_packet s).1 = s.video_packet_buffer.headD [] ∧
     (get_video_packet s).2.2 = true ∧
     (get_video_packet s).2.1.audio_packet_buffer = s.audio_packet_buffer) ∧
    ((get_audio_packet s).2.1.audio_packet_buffer = s.audio_packet_buffer.tail ∧
     (get_audio_packet s).1 = s.audio_packet_buffer.headD [] ∧
     (get_audio_packet s).2.2 = true ∧
     (get_audio_packet s).2.1.video_packet_buffer = s.video_packet_buffer) := by
  cases hv : s.video_packet_buffer <;> cases ha : s.audio_packet_buffer <;>
    simp [get_video_packet, get_audio_packet, get_packet, hv, ha]

/-- C1 fails as stated: after set(2, 1, linear) on the default transform
(current value 1), the fetch at elapsed equal to the duration returns
1 + 1000000/1000001 rather than exactly 2, because the evaluation divides by
duration + eps. -/
theorem C1_counterexample_fetch_at_duration :
    ((set_transform TweenedTransform.default 2 1 linearEase).fetch_and_tick 1).1
      ≠ 2 := by
  norm_num [set_transform, TweenedTransform.fetch_and_tick,
    TweenedTransform.tick, TweenedTransform.fetch, TweenedTransform.default,
    linearEase, eps]

/-- C1 amended: after set(T, d, linear) with d > 0, the value fetched after
ticking by k equals the linear easing at the clamped elapsed min k d with
duration d + eps; at elapsed d this is v0 + (T - v0) * d / (d + eps), exactly
T only when T = v0; the easing itself is exact at its endpoints, producing v0
at t = 0 and T at t = duration. -/
theorem C1_amended_set_then_fetch (tw : TweenedTransform) (T : Transform)
    (d : ℤ) (hd : 0 < d) (k : ℤ) :
    ((set_transform tw T d linearEase).fetch_and_tick k).1
        = linearEase ((min k d : ℤ) : ℚ) tw.fetch T ((d : ℚ) + eps) ∧
    ((set_transform tw T d linearEase).fetch_and_tick d).1
        = tw.fetch + (T - tw.fetch) * (d : ℚ) / ((d : ℚ) + eps) ∧
    linearEase 0 tw.fetch T (d : ℚ) = tw.fetch ∧
    linearEase ((d : ℤ) : ℚ) tw.fetch T (d : ℚ) = T := by
  have hd0 : ((d : ℚ)) ≠ 0 := by exact_mod_cast hd.ne'
  refine ⟨?_, ?_, ?_, ?_⟩
  · simp [set_transform, TweenedTransform.fetch_and_tick, TweenedTransform.tick,
      TweenedTransform.fetch, linearEase]
  · simp [set_transform, TweenedTransform.fetch_and_tick, TweenedTransform.tick,
      TweenedTransform.fetch, linearEase]
  · simp [linearEase]
  · field_simp [linearEase]

/-- C1 amended witness: at the default transform, T = 2, d = 1, the easing is
exact at the endpoint t = d. -/
theorem C1_amended_set_then_fetch_witness :
    (0 : ℤ) < 1 ∧
    linearEase (((1 : ℤ)) : ℚ) TweenedTransform.default.fetch 2 ((1 : ℤ) : ℚ)
      = 2 :=
  ⟨by decide,
   (C1_amended_set_then_fetch TweenedTransform.default 2 1 (by decide) 1).2.2.2⟩

/-- C3: the code contradicts the claim at duration 0.  On the default
transform (current value 1), apply (fun v => v + 1) with duration 0 followed
by fetch returns the previous value 1 and not fn(previous) = 2, and ticking
does not change this: the elapsed time is clamped to the 0 duration and the
linear easing at t = 0 yields the source, so a 0-duration tween never
resolves to dest. -/
theorem C3_zero_duration_tween_stuck_at_source :
    (apply_transform TweenedTransform.default (fun v => v + 1) 0
        linearEase).fetch = 1 ∧
    ((apply_transform TweenedTransform.default (fun v => v + 1) 0
        linearEase).fetch_and_tick 1).1 = 1 ∧
    (fun v => v + 1) TweenedTransform.default.fetch = 2 := by
  norm_num [apply_transform, TweenedTransform.fetch,
    TweenedTransform.fetch_and_tick, TweenedTransform.tick,
    TweenedTransform.default, linearEase, eps]

/-- Length of the item list produced by the image pass: one accept per frame
of the (already filtered) list it runs over. -/
lemma mix_image_pass_length (frames : List BasicFrame) :
    ∀ s : MixerState, (mix_image_pass s frames).2.length = frames.length := by
  induction frames with
  | nil => intro s; simp [mix_image_pass]
  | cons f rest ih => intro s; simp [mix_image_pass, ih]

/-- Length of the child list produced by the audio pass: one accept per frame
of the list it receives, with no filtering. -/
lemma mix_audio_length (frames : List BasicFrame) :
    ∀ s : MixerState, (mix_audio s frames).2.length = frames.length := by
  induction frames with
  | nil => intro s; simp [mix_audio]
  | cons f rest ih => intro s; simp [mix_audio, ih]

/-- C2 fails as stated: a tick whose only frame is the EMPTY frame still
accepts one child into the audio pass and advances the root audio tween by
one step, because mix_audio receives the unfiltered frame list; the image
pass does filter the frame out and accepts nothing. -/
theorem C2_counterexample_audio_pass_unfiltered :
    (mix_audio sampleProgressiveState [BasicFrame.empty]).2.length = 1 ∧
    (mix_audio sampleProgressiveState
        [BasicFrame.empty]).1.root_audio_transform.time = 1 ∧
    (mix_image sampleProgressiveState [BasicFrame.empty]).2 = [] := by
  refine ⟨rfl, ?_, rfl⟩
  simp [mix_audio, mix_audio_step, sampleProgressiveState,
    TweenedTransform.fetch_and_tick, TweenedTransform.tick]

/-- C2 amended: the EMPTY/EOF filter runs inside the image pass on its local
copy of the frame list, so the image pass accepts exactly one item per
surviving frame, while the audio pass receives the unfiltered list and
accepts exactly one child per frame, EMPTY and EOF included. -/
theorem C2_amended_filter_only_in_image_pass (s : MixerState)
    (frames : List BasicFrame) :
    (mix_image s frames).2.length = (surviving frames).length ∧
    (mix_audio s frames).2.length = frames.length := by
  exact ⟨mix_image_pass_length (surviving frames) s, mix_audio_length frames s⟩

/-- C4: processing one surviving frame in the image pass advances the root
image tween and that frame's per-layer image tween by exactly n elapsed
steps, and the audio pass step advances the root audio tween and the
per-layer audio tween by the same n, where n = 2 in an interlaced mode and
n = 1 in progressive (stated away from the clamp at the tween duration). -/
theorem C4_per_frame_tick_count (s : MixerState) (f : BasicFrame) (n : ℤ)
    (hn : n = if s.mode = VideoMode.progressive then 1 else 2)
    (h1 : s.root_image_transform.time + n ≤ s.root_image_transform.duration)
    (h2 : (s.image_transforms f.get_layer_index).time + n
            ≤ (s.image_transforms f.get_layer_index).duration)
    (h3 : s.root_audio_transform.time + n ≤ s.root_audio_transform.duration)
    (h4 : (s.audio_transforms f.get_layer_index).time + n
            ≤ (s.audio_transforms f.get_layer_index).duration) :
    (mix_image_step s f).1.root_image_transform.time
        = s.root_image_transform.time + n ∧
    ((mix_image_step s f).1.image_transforms f.get_layer_index).time
        = (s.image_transforms f.get_layer_index).time + n ∧
    (mix_audio_step s f).1.root_audio_transform.time
        = s.root_audio_transform.time + n ∧
    ((mix_audio_step s f).1.audio_transforms f.get_layer_index).time
        = (s.audio_transforms f.get_layer_index).time + n := by
  by_cases hm : s.mode = VideoMode.progressive <;>
    simp only [hm, if_true, if_false] at hn <;> subst hn <;>
    simp [mix_image_step, mix_audio_step, hm, TweenedTransform.fetch_and_tick,
      TweenedTransform.tick, updateMap] <;>
    omega

/-- C4 witness: in the interlaced sample state (all tween durations 10,
elapsed 0), one frame advances the root image and root audio tweens by 2. -/
theorem C4_per_frame_tick_count_witness :
    (mix_image_step sampleTickState
        (BasicFrame.frame 0)).1.root_image_transform.time
      = sampleTickState.root_image_transform.time + 2 ∧
    (mix_audio_step sampleTickState
        (BasicFrame.frame 0)).1.root_audio_transform.time
      = sampleTickState.root_audio_transform.time + 2 := by
  have h := C4_per_frame_tick_count sampleTickState (BasicFrame.frame 0) 2
    (by decide) (by decide) (by decide) (by decide) (by decide)
  exact ⟨h.1, h.2.2.1⟩

/-- C8: in a non-progressive (interlaced) mode each surviving frame produces
two children A and B whose transforms t1 and t2 are the two successive
root * per-layer evaluations, each ticking both tweens by 1; when t1 and t2
differ the accepted item is their interlace carrying both fields and the
mode, otherwise the second child alone is accepted and the first is
discarded. -/
theorem C8_interlaced_field_choice (s : MixerState) (f : BasicFrame)
    (t1 t2 : Transform)
    (hm : s.mode ≠ VideoMode.progressive)
    (h1 : t1 = (s.root_image_transform.fetch_and_tick 1).1
             * ((s.image_transforms f.get_layer_index).fetch_and_tick 1).1)
    (h2 : t2 = ((s.root_image_transform.fetch_and_tick 1).2.fetch_and_tick 1).1
             * (((s.image_transforms
                    f.get_layer_index).fetch_and_tick 1).2.fetch_and_tick 1).1) :
    (t1 ≠ t2 → (mix_image_step s f).2 = ImageItem.interlaced t1 t2 s.mode) ∧
    (t1 = t2 → (mix_image_step s f).2 = ImageItem.single t2) := by
  subst h1 h2
  constructor <;> intro hne <;> simp [mix_image_step, hm, hne]

/-- C8 witness: in the interlaced sample state the two field evaluations are
1 and 2; they differ, so the interlaced pair is accepted. -/
theorem C8_interlaced_field_choice_witness :
    (mix_image_step sampleInterlacedState (BasicFrame.frame 0)).2
      = ImageItem.interlaced 1 2 VideoMode.upper := by
  have h := C8_interlaced_field_choice sampleInterlacedState
    (BasicFrame.frame 0) 1 2 (by decide)
    (by norm_num [sampleInterlacedState, TweenedTransform.fetch_and_tick,
      TweenedTransform.tick, TweenedTransform.fetch, TweenedTransform.default,
      BasicFrame.get_layer_index, linearEase, eps])
    (by norm_num [sampleInterlacedState, TweenedTransform.fetch_and_tick,
      TweenedTransform.tick, TweenedTransform.fetch, TweenedTransform.default,
      BasicFrame.get_layer_index, linearEase, eps])
  exact h.1 (by norm_num)

/-- Value of the truncated base-10 logarithm at 120. -/
lemma nat_log_ten_120 : Nat.log 10 120 = 2 :=
  Nat.log_eq_of_pow_le_of_lt_pow (by norm_num) (by norm_num)

/-- C6 fails as stated: the source rewrites the numerator whenever it is 1
without checking the denominator.  For time base 1/120 the denominator is not
a power of ten, so the claim demands no change, yet fix_time_base yields
10/120. -/
theorem C6_counterexample_non_power_of_ten_rewritten :
    fix_time_base { num := 1, den := 120 } = { num := 10, den := 120 } ∧
    ({ num := 10, den := 120 } : TimeBase) ≠ { num := 1, den := 120 } ∧
    ∀ k : ℕ, (120 : ℤ) ≠ 10 ^ k := by
  refine ⟨?_, by decide, ?_⟩
  · simp [fix_time_base, pow10_trunc, nat_log_ten_120]
  · intro k hEq
    by_cases hk : k ≤ 2
    · interval_cases k <;> norm_num at hEq
    · have h3 : (1000 : ℤ) ≤ 10 ^ k := by
        calc (1000 : ℤ) = 10 ^ 3 := by norm_num
          _ ≤ 10 ^ k := pow_le_pow_right₀ (by norm_num) (by omega)
      rw [← hEq] at h3
      norm_num at h3

/-- fix_time_base is idempotent: the rewritten numerator is recomputed from
the unchanged denominator, so applying the repair again changes nothing. -/
lemma fix_time_base_idem (tb : TimeBase) :
    fix_time_base (fix_time_base tb) = fix_time_base tb := by
  unfold fix_time_base
  by_cases h : tb.num = 1 <;> simp [h]

/-- C6 amended: fix_time_base never changes the denominator; it leaves the
time base unchanged exactly when num is not 1; whenever num is 1 it rewrites
num to 10^(floor(log10 den) - 1) regardless of den, in particular to 10^k in
the power-of-ten case den = 10^(k+1) of the claim; during construction the
repair is applied to the video codec context and the audio context is left
untouched. -/
theorem C6_amended_repair_behaviour (tb : TimeBase) (k : ℕ)
    (audio : Option TimeBase) :
    (tb.num ≠ 1 → fix_time_base tb = tb) ∧
    (fix_time_base tb).den = tb.den ∧
    (tb.num = 1 → tb.den = 10 ^ (k + 1) → (fix_time_base tb).num = 10 ^ k) ∧
    (construct_fix (some tb) audio).1 = some (fix_time_base tb) ∧
    (construct_fix (some tb) audio).2 = audio := by
  refine ⟨?_, ?_, ?_, ?_, ?_⟩
  · intro h
    simp [fix_time_base, h]
  · by_cases h : tb.num = 1 <;> simp [fix_time_base, h]
  · intro h1 h2
    have hcast : ((10 ^ (k + 1) : ℕ) : ℤ) = 10 ^ (k + 1) := by push_cast; ring
    have hden : tb.den.toNat = 10 ^ (k + 1) := by
      rw [h2, ← hcast, Int.toNat_natCast]
    have hb10 : (1 : ℕ) < 10 := by norm_num
    have hlog : Nat.log 10 tb.den.toNat = k + 1 := by
      rw [hden]
      exact Nat.log_pow hb10 (k + 1)
    have hexp : ((k + 1 : ℕ) : ℤ) - 1 = (k : ℤ) := by push_cast; ring
    simp only [fix_time_base, h1, if_true, ite_true, if_pos]
    rw [hlog, hexp]
    simp [pow10_trunc, not_lt.mpr (Int.natCast_nonneg k)]
  · cases audio <;> simp [construct_fix, fix_time_base_idem]
  · cases audio <;> simp [construct_fix]

/-- C6 amended witness: the power-of-ten repair at time base 1/10^7 rewrites
the numerator to 10^6. -/
theorem C6_amended_repair_behaviour_witness :
    ({ num := 1, den := 10 ^ 7 } : TimeBase).num = 1 ∧
    ({ num := 1, den := 10 ^ 7 } : TimeBase).den = 10 ^ (6 + 1) ∧
    (fix_time_base { num := 1, den := 10 ^ 7 }).num = 10 ^ 6 :=
  ⟨rfl, by norm_num,
   (C6_amended_repair_behaviour { num := 1, den := 10 ^ 7 } 6 none).2.2.1 rfl
     (by norm_num)⟩

/-- C7: on a pump iteration whose container read failed, the pump stops when
looping is disabled; when looping is enabled, seek_frame(0, BACKWARD) is
attempted on the stream with the greater index, on success the seek
diagnostic tag is emitted and the pump keeps running, and on failure the pump
stops; seek_frame is a total Bool-valued function of the oracle and state, so
no exception escapes it. -/
theorem C7_read_failure_branches (av : AvOracle) (s : PumpState) :
    (s.loop = false → read_file av s ReadResult.failure
        = ({ s with running := false }, [])) ∧
    (s.loop = true → seek_frame av s 0 AVSEEK_FLAG_BACKWARD = true →
       read_file av s ReadResult.failure
         = (s, [PumpEvent.seek_call (max s.video_s_index s.audio_s_index),
                PumpEvent.seek_tag])) ∧
    (s.loop = true → seek_frame av s 0 AVSEEK_FLAG_BACKWARD = false →
       read_file av s ReadResult.failure
         = ({ s with running := false },
            [PumpEvent.seek_call (max s.video_s_index s.audio_s_index)])) :=
  ⟨fun hl => by simp [read_file, hl],
   fun hl hs => by simp [read_file, hl, hs],
   fun hl hs => by simp [read_file, hl, hs]⟩

/-- C7 witness: with a looping pump (streams 0 and 1) and an oracle whose
seek succeeds, the failed read emits the seek call on stream 1 and the seek
tag, and the pump keeps running. -/
theorem C7_read_failure_branches_witness :
    samplePumpState.loop = true ∧
    seek_frame sampleAvOk samplePumpState 0 AVSEEK_FLAG_BACKWARD = true ∧
    read_file sampleAvOk samplePumpState ReadResult.failure
      = (samplePumpState, [PumpEvent.seek_call 1, PumpEvent.seek_tag]) := by
  refine ⟨rfl, by decide, ?_⟩
  have h := (C7_read_failure_branches sampleAvOk samplePumpState).2.1 rfl
    (by decide)
  rw [h]
  norm_num [samplePumpState]

/-- Per-frame root image tween evolution: one image step moves its elapsed
time to min (time + n) duration, where n is 2 in a non-progressive mode and 1
in progressive; the duration and the mode are unchanged. -/
lemma mix_image_step_root_time (s : MixerState) (f : BasicFrame) :
    (mix_image_step s f).1.root_image_transform.time
      = min (s.root_image_transform.time
              + (if s.mode = VideoMode.progressive then 1 else 2))
            s.root_image_transform.duration ∧
    (mix_image_step s f).1.root_image_transform.duration
      = s.root_image_transform.duration ∧
    (mix_image_step s f).1.mode = s.mode := by
  by_cases hm : s.mode = VideoMode.progressive <;>
    simp [mix_image_step, hm, TweenedTransform.fetch_and_tick,
      TweenedTransform.tick] <;>
    omega

/-- Per-frame root audio tween evolution: one audio step moves its elapsed
time to min (time + n) duration with the same n; the duration and the mode
are unchanged. -/
lemma mix_audio_step_root_time (s : MixerState) (f : BasicFrame) :
    (mix_audio_step s f).1.root_audio_transform.time
      = min (s.root_audio_transform.time
              + (if s.mode = VideoMode.progressive then 1 else 2))
            s.root_audio_transform.duration ∧
    (mix_audio_step s f).1.root_audio_transform.duration
      = s.root_audio_transform.duration ∧
    (mix_audio_step s f).1.mode = s.mode := by
  by_cases hm : s.mode = VideoMode.progressive
  · simp [mix_audio_step, hm, TweenedTransform.fetch_and_tick,
      TweenedTransform.tick]
  · simp [mix_audio_step, hm, TweenedTransform.fetch_and_tick,
      TweenedTransform.tick]

/-- Root image tween elapsed time after the image pass over a frame list:
the clamped sum of n steps per frame. -/
lemma mix_image_pass_root_time (frames : List BasicFrame) :
    ∀ s : MixerState,
      s.root_image_transform.time ≤ s.root_image_transform.duration →
      (mix_image_pass s frames).1.root_image_transform.time
        = min (s.root_image_transform.time
                + (if s.mode = VideoMode.progressive then 1 else 2)
                  * (frames.length : ℤ))
              s.root_image_transform.duration := by
  induction frames with
  | nil =>
    intro s h
    simp [mix_image_pass]
    omega
  | cons f rest ih =>
    intro s h
    obtain ⟨ht, hd, hm⟩ := mix_image_step_root_time s f
    have hle : (mix_image_step s f).1.root_image_transform.time
        ≤ (mix_image_step s f).1.root_image_transform.duration := by
      rw [ht, hd]
      exact min_le_right _ _
    have hrec := ih (mix_image_step s f).1 hle
    simp only [mix_image_pass]
    rw [hrec, ht, hd, hm]
    by_cases hp : s.mode = VideoMode.progressive <;>
      simp only [hp, if_true, if_false, ite_true, ite_false, List.length_cons] <;>
      push_cast <;>
      omega

/-- Root audio tween elapsed time after the audio pass over a frame list:
the clamped sum of n steps per frame. -/
lemma mix_audio_root_time (frames : List BasicFrame) :
    ∀ s : MixerState,
      s.root_audio_transform.time ≤ s.root_audio_transform.duration →
      (mix_audio s frames).1.root_audio_transform.time
        = min (s.root_audio_transform.time
                + (if s.mode = VideoMode.progressive then 1 else 2)
                  * (frames.length : ℤ))
              s.root_audio_transform.duration := by
  induction frames with
  | nil =>
    intro s h
    simp [mix_audio]
    omega
  | cons f rest ih =>
    intro s h
    obtain ⟨ht, hd, hm⟩ := mix_audio_step_root_time s f
    have hle : (mix_audio_step s f).1.root_audio_transform.time
        ≤ (mix_audio_step s f).1.root_audio_transform.duration := by
      rw [ht, hd]
      exact min_le_right _ _
    have hrec := ih (mix_audio_step s f).1 hle
    simp only [mix_audio]
    rw [hrec, ht, hd, hm]
    by_cases hp : s.mode = VideoMode.progressive <;>
      simp only [hp, if_true, if_false, ite_true, ite_false, List.length_cons] <;>
      push_cast <;>
      omega

/-- C10: within one tick the root image tween is fetched-and-ticked once per
surviving frame, so with k surviving frames its elapsed time advances by
n * k (n = 1 progressive, n = 2 interlaced) rather than by a per-tick
constant, and the root audio tween advances by n per frame of the audio pass
(stated away from the clamp at the tween duration). -/
theorem C10_root_tween_advances_per_frame (s : MixerState)
    (frames : List BasicFrame) (n : ℤ)
    (hn : n = if s.mode = VideoMode.progressive then 1 else 2)
    (h1 : s.root_image_transform.time + n * ((surviving frames).length : ℤ)
            ≤ s.root_image_transform.duration)
    (h2 : s.root_audio_transform.time + n * (frames.length : ℤ)
            ≤ s.root_audio_transform.duration) :
    (mix_image s frames).1.root_image_transform.time
        = s.root_image_transform.time
          + n * ((surviving frames).length : ℤ) ∧
    (mix_audio s frames).1.root_audio_transform.time
        = s.root_audio_transform.time + n * (frames.length : ℤ) := by
  subst hn
  have hn0 : (0 : ℤ) ≤ if s.mode = VideoMode.progressive then 1 else 2 := by
    split <;> norm_num
  constructor
  · have hk : (0 : ℤ) ≤ ((surviving frames).length : ℤ) :=
      Int.natCast_nonneg _
    have ht : s.root_image_transform.time ≤ s.root_image_transform.duration := by
      have := mul_nonneg hn0 hk
      linarith
    have hpass := mix_image_pass_root_time (surviving frames) s ht
    simp only [mix_image]
    rw [hpass]
    exact min_eq_left h1
  · have hk : (0 : ℤ) ≤ ((frames.length : ℕ) : ℤ) := Int.natCast_nonneg _
    have ht : s.root_audio_transform.time ≤ s.root_audio_transform.duration := by
      have := mul_nonneg hn0 hk
      linarith
    have hpass := mix_audio_root_time frames s ht
    rw [hpass]
    exact min_eq_left h2

/-- C10 witness: interlaced sample state (root durations 10), three frames of
which two survive the image filter: the root image tween advances by 4 and
the root audio tween by 6. -/
theorem C10_root_tween_advances_per_frame_witness :
    (mix_image sampleTickState
        [BasicFrame.frame 0, BasicFrame.empty,
         BasicFrame.frame 1]).1.root_image_transform.time = 4 ∧
    (mix_audio sampleTickState
        [BasicFrame.frame 0, BasicFrame.empty,
         BasicFrame.frame 1]).1.root_audio_transform.time = 6 := by
  have h := C10_root_tween_advances_per_frame sampleTickState
    [BasicFrame.frame 0, BasicFrame.empty, BasicFrame.frame 1] 2
    (by decide) (by decide) (by decide)
  refine ⟨?_, ?_⟩
  · rw [h.1]
    decide
  · rw [h.2]
    decide

end Server
